import Mathlib

/-!
Verification development for `src/services/emotion/serve.py`, a FastAPI
speech-emotion-recognition service.  The Python functions are shallowly
embedded: strings are Lean `String`s, float scores are modelled as `ℚ`,
exceptions as `Except String`, and the external collaborators (librosa,
ffmpeg, the torch classifier) are abstracted as explicit outcome
parameters.  The stable Python `sorted` is modelled by `List.insertionSort`,
which is stable for a total preorder in the same sense.
-/

namespace EmotionServe

instance {ε α : Type} [DecidableEq ε] [DecidableEq α] : DecidableEq (Except ε α) :=
  fun a b =>
    match a, b with
    | Except.error e, Except.error f =>
      if h : e = f then isTrue (by rw [h])
      else isFalse (by intro hc; cases hc; exact h rfl)
    | Except.error _, Except.ok _ => isFalse (by intro hc; cases hc)
    | Except.ok _, Except.error _ => isFalse (by intro hc; cases hc)
    | Except.ok x, Except.ok y =>
      if h : x = y then isTrue (by rw [h])
      else isFalse (by intro hc; cases hc; exact h rfl)

/-! ### Python string primitives used by `_normalize_label` -/

/-- Whitespace recognised by Python `str.strip()` / `str.split()` (ASCII part). -/
def pyIsSpace (c : Char) : Bool :=
  c = ' ' || c = '\t' || c = '\n' || c = '\r' || c = '\x0b' || c = '\x0c'

/-- Python `str.strip()`: drop leading and trailing whitespace. -/
def pyStrip (s : String) : String :=
  String.mk (((s.data.dropWhile pyIsSpace).reverse.dropWhile pyIsSpace).reverse)

/-- Python `str.lower()` on the ASCII label strings involved. -/
def pyLower (s : String) : String :=
  String.mk (s.data.map Char.toLower)

/-- Composition of `.replace("_", " ").replace("-", " ")`. -/
def sepToSpace (s : String) : String :=
  String.mk (s.data.map fun c => if c = '_' || c = '-' then ' ' else c)

/-- Helper for Python `str.split()` with no argument: split on runs of
whitespace, dropping empty pieces. -/
def pySplitAux : List Char → List Char → List String
  | [], acc => if acc.isEmpty then [] else [String.mk acc.reverse]
  | c :: cs, acc =>
    if pyIsSpace c then
      if acc.isEmpty then pySplitAux cs []
      else String.mk acc.reverse :: pySplitAux cs []
    else pySplitAux cs (c :: acc)

/-- Python `str.split()` with no argument. -/
def pySplit (s : String) : List String := pySplitAux s.data []

/-- Line 86 of serve.py:
`value = " ".join(raw.strip().lower().replace("_", " ").replace("-", " ").split())`. -/
def normalizeValue (raw : String) : String :=
  " ".intercalate (pySplit (sepToSpace (pyLower (pyStrip raw))))

/-- The fixed synonym table of `_normalize_label` (lines 87-110), in source
order.  The keys are distinct, so association-list lookup agrees with the
Python dict. -/
def labelMapping : List (String × String) :=
  [("angry", "angry"), ("anger", "angry"), ("ang", "angry"),
   ("happy", "happy"), ("happiness", "happy"), ("joy", "happy"), ("hap", "happy"),
   ("neutral", "neutral"), ("neu", "neutral"),
   ("sad", "sad"), ("sadness", "sad"),
   ("fear", "fear"), ("fearful", "fear"),
   ("disgust", "disgust"), ("disgusted", "disgust"), ("dis", "disgust"),
   ("surprise", "surprise"), ("surprised", "surprise"), ("sur", "surprise"),
   ("contempt", "disgust")]

/-- Python `mapping.get(value)`: `None` when the key is absent. -/
def mappingGet (key : String) : Option String :=
  (labelMapping.find? (fun kv => kv.1 == key)).map (fun kv => kv.2)

/-- `_normalize_label` (lines 85-111): normalize the raw string and look it
up in the synonym table. -/
def normalize_label (raw : String) : Option String :=
  mappingGet (normalizeValue raw)

/-! ### Label reconciliation inside `classify_waveform` (lines 200-218) -/

/-- The canonical 7-label vocabulary `EMOTIONS` (line 38). -/
def EMOTIONS : List String :=
  ["angry", "disgust", "fear", "happy", "neutral", "sad", "surprise"]

/-- Python `max` on two scores, written with an explicit comparison so that
it evaluates by kernel reduction; equal to the Lean `max` by `pyMax_eq_max`. -/
def pyMax (a b : ℚ) : ℚ := if a ≤ b then b else a

/-- Python `min` on two scores; equal to the Lean `min` by `pyMin_eq_min`. -/
def pyMin (a b : ℚ) : ℚ := if a ≤ b then a else b

theorem pyMax_eq_max (a b : ℚ) : pyMax a b = max a b := (max_def a b).symm

theorem pyMin_eq_min (a b : ℚ) : pyMin a b = min a b := (min_def a b).symm

/-- Line 206: `float(max(0.0, min(1.0, raw_score)))`. -/
def clamp01 (x : ℚ) : ℚ := pyMax 0 (pyMin 1 x)

/-- One iteration of the loop at lines 201-207, acting on the score table
(`mapped_scores`, modelled as a function from labels to scores): skip the
pair when its label does not normalize, otherwise max-merge the clamped
score into the slot of the canonical label. -/
def updateScores (f : String → ℚ) (pr : String × ℚ) : String → ℚ :=
  match normalize_label pr.1 with
  | none => f
  | some lab => fun l => if l = lab then pyMax (f l) (clamp01 pr.2) else f l

/-- The score table after the loop at lines 200-207, starting from
`{emotion: 0.0 for emotion in EMOTIONS}`. -/
def mappedFun (pairs : List (String × ℚ)) : String → ℚ :=
  pairs.foldl updateScores (fun _ => 0)

/-- `mapped_scores.items()`: the Python dict keeps its initial key order
(all keys are inserted up front from `EMOTIONS`), so the items are the
emotions in `EMOTIONS` order paired with their merged scores. -/
def mappedItems (pairs : List (String × ℚ)) : List (String × ℚ) :=
  EMOTIONS.map (fun e => (e, mappedFun pairs e))

/-- Line 209: `max(mapped_scores.values()) if mapped_scores else 0.0`. -/
def maxValue (items : List (String × ℚ)) : ℚ :=
  match items with
  | [] => 0
  | p :: ps => ps.foldl (fun acc q => pyMax acc q.2) p.2

/-- The order used by `sorted(..., key=lambda item: item[1], reverse=True)`:
descending by score. -/
def descRel (a b : String × ℚ) : Prop := b.2 ≤ a.2

instance : DecidableRel descRel :=
  fun a b => inferInstanceAs (Decidable (b.2 ≤ a.2))

instance : IsTotal (String × ℚ) descRel := ⟨fun a b => le_total b.2 a.2⟩

instance : IsTrans (String × ℚ) descRel := ⟨fun _ _ _ hab hbc => le_trans hbc hab⟩

/-- The Python `sorted` is a stable sort; `List.insertionSort` is the stable
sort on lists, so it produces the same list for the same total preorder. -/
def sortedDescending (items : List (String × ℚ)) : List (String × ℚ) :=
  items.insertionSort descRel

/-- Lines 200-218 of `classify_waveform`: the label-reconciliation segment,
taking the raw (native label, score) pairs produced by
`enumerate(probabilities)` + `ID2LABEL` lookup.  Raising `RuntimeError` is
modelled as `Except.error` with the exception message. -/
def classify_waveform (pairs : List (String × ℚ)) :
    Except String (List (String × ℚ)) :=
  let scores := mappedItems pairs
  let highest := maxValue scores
  if highest ≤ 0 then
    Except.error "No valid emotion label returned by classifier."
  else
    Except.ok ((sortedDescending scores).filter (fun p => decide (0 < p.2)))

/-- The clamped scores of the pairs that fold into a given canonical label,
in input order. -/
def contributions (pairs : List (String × ℚ)) (canon : String) : List ℚ :=
  (pairs.filter (fun p => decide (normalize_label p.1 = some canon))).map
    (fun p => clamp01 p.2)

/-! ### Backend A inference adapter (lines 182-198) -/

/-- Line 187: `std = MODEL_STD if np.isfinite(MODEL_STD) and MODEL_STD > 0 else 1.0`.
Since `ℚ` has no non-finite values, finiteness of the float is carried as a
separate flag. -/
def guardedStd (std : ℚ) (stdFinite : Bool) : ℚ :=
  if stdFinite = true ∧ 0 < std then std else 1

/-- Line 188: `normalized = (audio - MODEL_MEAN) / std` (elementwise). -/
def normalizeWaveform (audio : List ℚ) (mean std : ℚ) (stdFinite : Bool) :
    List ℚ :=
  audio.map (fun x => (x - mean) / guardedStd std stdFinite)

/-- The two tensor arguments of the model call at line 194:
`classifier(waveform, mask)`. -/
structure ModelCall where
  waveform : List ℚ
  mask : List ℚ

/-- Lines 190-191: the waveform tensor is the normalized audio and the
attention mask is `torch.ones` of the same length. -/
def buildModelCall (audio : List ℚ) (mean std : ℚ) (stdFinite : Bool) :
    ModelCall :=
  let w := normalizeWaveform audio mean std stdFinite
  { waveform := w, mask := List.replicate w.length 1 }

/-- Line 198: `torch.softmax(logits, dim=-1)` on a row of logits, with the
real exponential abstracted as a parameter `e`; only its positivity is used
in the theorems, which the actual exponential satisfies. -/
def softmaxWith (e : ℚ → ℚ) (logits : List ℚ) : List ℚ :=
  logits.map (fun x => e x / (logits.map e).sum)

/-! ### Audio loading (`load_audio_as_float32`, lines 149-167) -/

/-- Outcome of a decode attempt (`librosa.load` + `np.asarray`): either an
exception (message) or a list of samples. -/
def decodeFailed (r : Except String (List ℚ)) : Prop :=
  match r with
  | Except.error _ => True
  | Except.ok samples => samples = []

instance (r : Except String (List ℚ)) : Decidable (decodeFailed r) := by
  unfold decodeFailed
  cases r <;> infer_instance

/-- `load_audio_as_float32` (lines 149-167), parameterized by the outcomes
of the external steps: `primary` is the direct `librosa.load` on the raw
bytes (the surrounding `try` swallows its exception), `transcode` is
`_convert_to_wav_via_ffmpeg` (its exception propagates), and `secondary` is
the `librosa.load` on the transcoded WAV bytes (its exception propagates). -/
def load_audio_as_float32 (primary : Except String (List ℚ))
    (hasFfmpeg : Bool) (transcode : Except String Unit)
    (secondary : Except String (List ℚ)) : Except String (List ℚ) :=
  let fallback : Except String (List ℚ) :=
    if hasFfmpeg = false then
      Except.error "Audio decode failed and ffmpeg is not installed."
    else
      match transcode with
      | Except.error msg => Except.error msg
      | Except.ok _ =>
        match secondary with
        | Except.error msg => Except.error msg
        | Except.ok samples =>
          if samples.length = 0 then Except.error "Decoded audio is empty."
          else Except.ok samples
  match primary with
  | Except.error _ => fallback
  | Except.ok samples =>
    if 0 < samples.length then Except.ok samples else fallback

/-! ### ffmpeg transcoding and temp-file cleanup (lines 114-146) -/

/-- Existing file paths, as a model of the relevant file-system state. -/
abbrev Fs := List String

/-- The temp path produced by `NamedTemporaryFile(suffix=".input")`. -/
def srcPath : String := "tmp.input"

/-- Line 119: `wav_path = src_path + ".wav"`. -/
def wavPath : String := srcPath ++ ".wav"

/-- Lines 142-146: `os.unlink(path)` inside `try/except OSError: pass` —
remove the file when present, swallow the error when absent. -/
def unlinkCatchOSError (fs : Fs) (path : String) : Fs :=
  if path ∈ fs then fs.erase path else fs

/-- How the `subprocess.run(...)` call at lines 121-138 can end. -/
inductive RunOutcome where
  | completed
  | calledProcessError (msg : String)
  | timeoutExpired (msg : String)

/-- `_convert_to_wav_via_ffmpeg` (lines 114-146): write the input temp
file, run ffmpeg (which may or may not have written the output file when it
finishes or fails), read the output file, and in a `finally` block unlink
both paths.  Returns the Python result (bytes or propagated exception)
together with the final file-system state. -/
def convert_to_wav_via_ffmpeg (outcome : RunOutcome) (wavWritten : Bool)
    (readOk : Bool) (wavBytes : List Nat) : Except String (List Nat) × Fs :=
  let fs0 : Fs := [srcPath]
  let fs1 : Fs := if wavWritten then fs0 ++ [wavPath] else fs0
  let body : Except String (List Nat) :=
    match outcome with
    | RunOutcome.completed =>
      if readOk then Except.ok wavBytes
      else Except.error "could not read output file"
    | RunOutcome.calledProcessError msg => Except.error msg
    | RunOutcome.timeoutExpired msg => Except.error msg
  (body, unlinkCatchOSError (unlinkCatchOSError fs1 srcPath) wavPath)

/-! ### HTTP endpoint (`classify`, lines 234-251) -/

/-- JSON values, for stating the exact response bodies. -/
inductive Json where
  | str (s : String)
  | num (q : ℚ)
  | arr (items : List Json)
  | obj (fields : List (String × Json))

/-- Line 214: `{"label": label, "score": score}`. -/
def predictionJson (p : String × ℚ) : Json :=
  Json.obj [("label", Json.str p.1), ("score", Json.num p.2)]

/-- The `POST /classify` handler (lines 234-251), with the decode+inference
pipeline (`load_audio_as_float32` then `classify_waveform`) abstracted as a
function from the uploaded bytes to a result.  Returns (status code, body). -/
def classify (raw : List Nat)
    (pipeline : List Nat → Except String (List (String × ℚ))) : Nat × Json :=
  if raw.isEmpty then
    (400, Json.obj [("error", Json.str "Empty audio file.")])
  else
    match pipeline raw with
    | Except.error msg =>
      (422, Json.obj [("error", Json.str ("Could not classify audio: " ++ msg))])
    | Except.ok preds => (200, Json.arr [Json.arr (preds.map predictionJson)])

/-! ### Helper lemmas -/

theorem clamp01_nonneg (x : ℚ) : 0 ≤ clamp01 x := by
  unfold clamp01
  rw [pyMax_eq_max]
  exact le_max_left 0 _

theorem clamp01_le_one (x : ℚ) : clamp01 x ≤ 1 := by
  unfold clamp01
  rw [pyMax_eq_max, pyMin_eq_min]
  exact max_le (by norm_num) (min_le_left 1 x)

theorem contributions_cons (p : String × ℚ) (ps : List (String × ℚ))
    (canon : String) :
    contributions (p :: ps) canon =
      if normalize_label p.1 = some canon then
        clamp01 p.2 :: contributions ps canon
      else contributions ps canon := by
  unfold contributions
  rw [List.filter_cons]
  by_cases h : normalize_label p.1 = some canon <;> simp [h]

theorem updateScores_of_none (f : String → ℚ) (pr : String × ℚ)
    (h : normalize_label pr.1 = none) : updateScores f pr = f := by
  unfold updateScores
  rw [h]

theorem updateScores_of_some (f : String → ℚ) (pr : String × ℚ) (lab : String)
    (h : normalize_label pr.1 = some lab) :
    updateScores f pr =
      fun l => if l = lab then pyMax (f l) (clamp01 pr.2) else f l := by
  unfold updateScores
  rw [h]

/-- The loop at lines 200-207, started from any score table, computes at
each canonical label the fold of `max` over the clamped
contributions. -/
theorem foldl_updateScores_eq (pairs : List (String × ℚ)) (f : String → ℚ)
    (canon : String) :
    pairs.foldl updateScores f canon =
      (contributions pairs canon).foldl max (f canon) := by
  induction pairs generalizing f with
  | nil => rfl
  | cons p ps ih =>
    rw [List.foldl_cons, contributions_cons]
    cases h : normalize_label p.1 with
    | none =>
      rw [if_neg (fun hc => Option.noConfusion hc),
        updateScores_of_none f p h, ih]
    | some lab =>
      by_cases hcan : lab = canon
      · subst hcan
        rw [if_pos rfl, List.foldl_cons, ih]
        have hupd : updateScores f p lab = max (f lab) (clamp01 p.2) := by
          rw [updateScores_of_some f p lab h]
          simp [pyMax_eq_max]
        rw [hupd]
      · rw [if_neg (by simpa using fun hc => hcan hc), ih]
        have hupd : updateScores f p canon = f canon := by
          rw [updateScores_of_some f p lab h]
          dsimp only
          rw [if_neg (fun hc => hcan hc.symm)]
        rw [hupd]

theorem mappedFun_eq_foldl_contributions (pairs : List (String × ℚ))
    (canon : String) :
    mappedFun pairs canon = (contributions pairs canon).foldl max 0 :=
  foldl_updateScores_eq pairs (fun _ => 0) canon

theorem contributions_mem_bounds (pairs : List (String × ℚ)) (canon : String)
    (x : ℚ) (hx : x ∈ contributions pairs canon) : 0 ≤ x ∧ x ≤ 1 := by
  obtain ⟨p, _, rfl⟩ := List.mem_map.mp hx
  exact ⟨clamp01_nonneg p.2, clamp01_le_one p.2⟩

theorem foldl_max_bounds (l : List ℚ) (a : ℚ)
    (hl : ∀ x ∈ l, 0 ≤ x ∧ x ≤ 1) (ha : 0 ≤ a ∧ a ≤ 1) :
    0 ≤ l.foldl max a ∧ l.foldl max a ≤ 1 := by
  induction l generalizing a with
  | nil => exact ha
  | cons x xs ih =>
    rw [List.foldl_cons]
    have hx := hl x (List.mem_cons_self x xs)
    exact ih (max a x) (fun y hy => hl y (List.mem_cons_of_mem x hy))
      ⟨le_max_of_le_left ha.1, max_le ha.2 hx.2⟩

theorem mappedFun_bounds (pairs : List (String × ℚ)) (canon : String) :
    0 ≤ mappedFun pairs canon ∧ mappedFun pairs canon ≤ 1 := by
  rw [mappedFun_eq_foldl_contributions]
  exact foldl_max_bounds _ 0 (contributions_mem_bounds pairs canon)
    ⟨le_refl 0, by norm_num⟩

/-! ### Claim theorems -/

/-- C1: for every collection of raw (native label, score) pairs, when
native labels fold into the same canonical label the reconciled score for
that canonical label is the maximum — not the sum — of the scores of
those labels, each first clamped into [0,1]; and every reconciled score lies in
[0,1]. -/
theorem reconciled_score_max_merge (pairs : List (String × ℚ))
    (canon : String) :
    (∀ c cs, contributions pairs canon = c :: cs →
      mappedFun pairs canon = cs.foldl max c) ∧
    0 ≤ mappedFun pairs canon ∧ mappedFun pairs canon ≤ 1 := by
  refine ⟨?_, mappedFun_bounds pairs canon⟩
  intro c cs hc
  rw [mappedFun_eq_foldl_contributions, hc, List.foldl_cons,
    max_eq_right (contributions_mem_bounds pairs canon c (by rw [hc]; exact List.mem_cons_self c cs)).1]

theorem reconciled_score_max_merge_witness :
    mappedFun [("Angry", (0 : ℚ)), ("anger", 2)] "angry" =
      [(1 : ℚ)].foldl max 0 ∧
    0 ≤ mappedFun [("Angry", (0 : ℚ)), ("anger", 2)] "angry" ∧
    mappedFun [("Angry", (0 : ℚ)), ("anger", 2)] "angry" ≤ 1 :=
  ⟨(reconciled_score_max_merge [("Angry", 0), ("anger", 2)] "angry").1 0 [1]
      (by decide),
   (reconciled_score_max_merge [("Angry", 0), ("anger", 2)] "angry").2.1,
   (reconciled_score_max_merge [("Angry", 0), ("anger", 2)] "angry").2.2⟩

/-- Pairs whose label does not normalize leave the loop state unchanged, so
filtering them out of the input leaves the final score table unchanged. -/
theorem foldl_updateScores_filter (pairs : List (String × ℚ))
    (f : String → ℚ) :
    (pairs.filter (fun p => (normalize_label p.1).isSome)).foldl
        updateScores f =
      pairs.foldl updateScores f := by
  induction pairs generalizing f with
  | nil => rfl
  | cons p ps ih =>
    rw [List.filter_cons]
    cases h : normalize_label p.1 with
    | none =>
      rw [if_neg (by simp [h]), List.foldl_cons, updateScores_of_none f p h]
      exact ih f
    | some lab =>
      rw [if_pos (by simp [h]), List.foldl_cons, List.foldl_cons]
      exact ih (updateScores f p)

theorem mappedFun_filter (pairs : List (String × ℚ)) :
    mappedFun (pairs.filter (fun p => (normalize_label p.1).isSome)) =
      mappedFun pairs :=
  foldl_updateScores_filter pairs (fun _ => 0)

/-- C3: for every raw label string, after lowercasing, stripping and
collapsing separators, a string matching a synonym spelling in the fixed
table maps to the canonical label of that synonym, a string matching no table
key maps to none, and pairs whose label maps to none are silently dropped:
removing them from the input leaves `classify_waveform` unchanged (so they
are never surfaced and never cause a failure by themselves). -/
theorem normalize_label_spec (raw : String) :
    (∀ kv ∈ labelMapping, normalizeValue raw = kv.1 →
      normalize_label raw = some kv.2) ∧
    ((∀ kv ∈ labelMapping, normalizeValue raw ≠ kv.1) →
      normalize_label raw = none) ∧
    (∀ pairs : List (String × ℚ),
      classify_waveform (pairs.filter (fun p => (normalize_label p.1).isSome)) =
        classify_waveform pairs) := by
  refine ⟨?_, ?_, ?_⟩
  · have htable : ∀ kv ∈ labelMapping, mappingGet kv.1 = some kv.2 := by decide
    intro kv hkv hval
    unfold normalize_label
    rw [hval]
    exact htable kv hkv
  · intro hne
    unfold normalize_label mappingGet
    rw [List.find?_eq_none.mpr]
    · rfl
    · intro kv hkv
      simp only [beq_iff_eq]
      exact fun hc => hne kv hkv hc.symm
  · intro pairs
    unfold classify_waveform mappedItems mappedFun
    rw [foldl_updateScores_filter pairs (fun _ => 0)]

theorem normalize_label_spec_witness :
    normalize_label " Angry " = some "angry" ∧
    normalize_label "bogus" = none ∧
    classify_waveform
        ([("ang", (1 : ℚ)), ("???", 1)].filter
          (fun p => (normalize_label p.1).isSome)) =
      classify_waveform [("ang", (1 : ℚ)), ("???", 1)] :=
  ⟨(normalize_label_spec " Angry ").1 ("angry", "angry") (by decide) (by decide),
   (normalize_label_spec "bogus").2.1 (by decide),
   (normalize_label_spec "x").2.2 [("ang", 1), ("???", 1)]⟩

/-- C2: for every successful classification, every returned label belongs
to the fixed 7-label vocabulary, and the model-specific native label
"contempt" normalizes to "disgust". -/
theorem returned_labels_in_vocabulary (pairs : List (String × ℚ))
    (preds : List (String × ℚ))
    (h : classify_waveform pairs = Except.ok preds) :
    (∀ p ∈ preds, p.1 ∈ EMOTIONS) ∧
    normalize_label "contempt" = some "disgust" := by
  refine ⟨?_, by decide⟩
  intro p hp
  unfold classify_waveform at h
  dsimp only at h
  split at h
  · exact Except.noConfusion h
  · injection h with h
    subst h
    have hp1 := List.mem_of_mem_filter hp
    unfold sortedDescending at hp1
    rw [List.mem_insertionSort] at hp1
    unfold mappedItems at hp1
    obtain ⟨e, he, heq⟩ := List.mem_map.mp hp1
    rw [← heq]
    exact he

theorem returned_labels_in_vocabulary_witness :
    (∀ p ∈ [("angry", (1 : ℚ))], p.1 ∈ EMOTIONS) ∧
    normalize_label "contempt" = some "disgust" :=
  returned_labels_in_vocabulary [("ang", 1)] [("angry", 1)] (by decide)

/-- C4: for every successful classification, the prediction list contains
exactly the canonical labels with strictly positive merged score (each
paired with its merged score), and the list is ordered by descending
score. -/
theorem predictions_positive_and_sorted (pairs : List (String × ℚ))
    (preds : List (String × ℚ))
    (h : classify_waveform pairs = Except.ok preds) :
    (∀ p ∈ preds, 0 < p.2 ∧ p.2 = mappedFun pairs p.1) ∧
    (∀ canon ∈ EMOTIONS, 0 < mappedFun pairs canon →
      (canon, mappedFun pairs canon) ∈ preds) ∧
    List.Sorted descRel preds := by
  unfold classify_waveform at h
  dsimp only at h
  split at h
  · exact Except.noConfusion h
  · injection h with h
    subst h
    refine ⟨?_, ?_, ?_⟩
    · intro p hp
      rw [List.mem_filter] at hp
      obtain ⟨hmem, hpos⟩ := hp
      refine ⟨by simpa using hpos, ?_⟩
      unfold sortedDescending at hmem
      rw [List.mem_insertionSort] at hmem
      unfold mappedItems at hmem
      obtain ⟨e, _, heq⟩ := List.mem_map.mp hmem
      rw [← heq]
    · intro canon hcanon hpos
      rw [List.mem_filter]
      constructor
      · unfold sortedDescending
        rw [List.mem_insertionSort]
        unfold mappedItems
        exact List.mem_map.mpr ⟨canon, hcanon, rfl⟩
      · simpa using hpos
    · exact List.Pairwise.sublist (List.filter_sublist _)
        (List.sorted_insertionSort descRel _)

theorem predictions_positive_and_sorted_witness :
    (∀ p ∈ [("angry", (1 : ℚ)), ("happy", 1)],
      0 < p.2 ∧ p.2 = mappedFun [("ang", (2 : ℚ)), ("HAPPINESS", 1)] p.1) ∧
    (∀ canon ∈ EMOTIONS,
      0 < mappedFun [("ang", (2 : ℚ)), ("HAPPINESS", 1)] canon →
      (canon, mappedFun [("ang", (2 : ℚ)), ("HAPPINESS", 1)] canon) ∈
        [("angry", (1 : ℚ)), ("happy", 1)]) ∧
    List.Sorted descRel [("angry", (1 : ℚ)), ("happy", 1)] :=
  predictions_positive_and_sorted [("ang", 2), ("HAPPINESS", 1)]
    [("angry", 1), ("happy", 1)] (by decide)

/-- C7: if after reconciliation the merged score of every canonical label is
zero, `classify_waveform` raises the inference error rather than returning
a result, and the request then fails with HTTP 422. -/
theorem all_zero_scores_error (pairs : List (String × ℚ))
    (h : ∀ canon ∈ EMOTIONS, mappedFun pairs canon = 0) :
    classify_waveform pairs =
      Except.error "No valid emotion label returned by classifier." ∧
    (∀ raw : List Nat, raw ≠ [] →
      classify raw (fun _ => classify_waveform pairs) =
        (422, Json.obj [("error", Json.str
          "Could not classify audio: No valid emotion label returned by classifier.")])) := by
  have hitems : mappedItems pairs = EMOTIONS.map (fun e => (e, 0)) := by
    unfold mappedItems
    exact List.map_congr_left (fun e he => by rw [h e he])
  have hmax : maxValue (EMOTIONS.map (fun e => (e, (0 : ℚ)))) = 0 := by decide
  have hcw : classify_waveform pairs =
      Except.error "No valid emotion label returned by classifier." := by
    unfold classify_waveform
    dsimp only
    rw [hitems, hmax, if_pos le_rfl]
  refine ⟨hcw, ?_⟩
  intro raw hraw
  unfold classify
  rw [if_neg (by simpa [List.isEmpty_iff] using hraw), hcw]
  rfl

theorem all_zero_scores_error_witness :
    classify_waveform ([] : List (String × ℚ)) =
      Except.error "No valid emotion label returned by classifier." ∧
    classify [7] (fun _ => classify_waveform ([] : List (String × ℚ))) =
      (422, Json.obj [("error", Json.str
        "Could not classify audio: No valid emotion label returned by classifier.")]) :=
  ⟨(all_zero_scores_error [] (by decide)).1,
   (all_zero_scores_error [] (by decide)).2 [7] (by decide)⟩

/-- C5: `load_audio_as_float32` uses a successful non-empty direct decode
as is; when the direct decode throws or yields zero samples it fails with
the missing-transcoder error if ffmpeg is absent, and otherwise transcodes
and re-decodes, failing with the empty-result error when the re-decode is
empty and returning the samples when it is not. -/
theorem load_audio_fallback_chain (primary : Except String (List ℚ))
    (hasFfmpeg : Bool) (transcode : Except String Unit)
    (secondary : Except String (List ℚ)) :
    (∀ samples, primary = Except.ok samples → samples ≠ [] →
      load_audio_as_float32 primary hasFfmpeg transcode secondary =
        Except.ok samples) ∧
    (decodeFailed primary → hasFfmpeg = false →
      load_audio_as_float32 primary hasFfmpeg transcode secondary =
        Except.error "Audio decode failed and ffmpeg is not installed.") ∧
    (decodeFailed primary → hasFfmpeg = true → transcode = Except.ok () →
      secondary = Except.ok [] →
      load_audio_as_float32 primary hasFfmpeg transcode secondary =
        Except.error "Decoded audio is empty.") ∧
    (∀ samples, decodeFailed primary → hasFfmpeg = true →
      transcode = Except.ok () → secondary = Except.ok samples →
      samples ≠ [] →
      load_audio_as_float32 primary hasFfmpeg transcode secondary =
        Except.ok samples) := by
  refine ⟨?_, ?_, ?_, ?_⟩
  · intro samples hs hne
    subst hs
    show (if 0 < samples.length then Except.ok samples else _) =
      Except.ok samples
    rw [if_pos (List.length_pos.mpr hne)]
  · intro hdf hff
    subst hff
    cases primary with
    | error msg => rfl
    | ok samples =>
      have hs : samples = [] := hdf
      subst hs
      rfl
  · intro hdf hff htr hsec
    subst hff htr hsec
    cases primary with
    | error msg => rfl
    | ok samples =>
      have hs : samples = [] := hdf
      subst hs
      rfl
  · intro samples hdf hff htr hsec hne
    subst hff htr hsec
    have hlen : ¬(samples.length = 0) :=
      fun hc => hne (List.length_eq_zero.mp hc)
    cases primary with
    | error msg =>
      show (if samples.length = 0 then _ else Except.ok samples) =
        Except.ok samples
      rw [if_neg hlen]
    | ok prim =>
      have hp : prim = [] := hdf
      subst hp
      show (if samples.length = 0 then _ else Except.ok samples) =
        Except.ok samples
      rw [if_neg hlen]

theorem load_audio_fallback_chain_witness :
    load_audio_as_float32 (Except.error "boom") true (Except.ok ())
        (Except.ok []) = Except.error "Decoded audio is empty." ∧
    load_audio_as_float32 (Except.error "boom") false (Except.ok ())
        (Except.ok []) =
      Except.error "Audio decode failed and ffmpeg is not installed." ∧
    load_audio_as_float32 (Except.error "boom") true (Except.ok ())
        (Except.ok [1]) = Except.ok [1] :=
  ⟨(load_audio_fallback_chain (Except.error "boom") true (Except.ok ())
      (Except.ok [])).2.2.1 trivial rfl rfl rfl,
   (load_audio_fallback_chain (Except.error "boom") false (Except.ok ())
      (Except.ok [])).2.1 trivial rfl,
   (load_audio_fallback_chain (Except.error "boom") true (Except.ok ())
      (Except.ok [1])).2.2.2 [1] trivial rfl rfl rfl (by decide)⟩

/-- C6: `POST /classify` returns 400 with body `{"error": "Empty audio
file."}` exactly when the uploaded bytes are empty; on a pipeline failure
it returns 422 with a JSON object carrying the exception message, and on
success it returns 200 with a single-element array wrapping the array of
label/score objects. -/
theorem classify_http_contract (raw : List Nat)
    (pipeline : List Nat → Except String (List (String × ℚ))) :
    (classify raw pipeline =
        (400, Json.obj [("error", Json.str "Empty audio file.")]) ↔
      raw = []) ∧
    (∀ msg, raw ≠ [] → pipeline raw = Except.error msg →
      classify raw pipeline =
        (422, Json.obj [("error",
          Json.str ("Could not classify audio: " ++ msg))])) ∧
    (∀ preds, raw ≠ [] → pipeline raw = Except.ok preds →
      classify raw pipeline =
        (200, Json.arr [Json.arr (preds.map predictionJson)])) := by
  have h422 : ∀ msg, raw ≠ [] → pipeline raw = Except.error msg →
      classify raw pipeline =
        (422, Json.obj [("error",
          Json.str ("Could not classify audio: " ++ msg))]) := by
    intro msg hne hp
    unfold classify
    rw [if_neg (by simpa [List.isEmpty_iff] using hne), hp]
  have h200 : ∀ preds, raw ≠ [] → pipeline raw = Except.ok preds →
      classify raw pipeline =
        (200, Json.arr [Json.arr (preds.map predictionJson)]) := by
    intro preds hne hp
    unfold classify
    rw [if_neg (by simpa [List.isEmpty_iff] using hne), hp]
  refine ⟨⟨?_, ?_⟩, h422, h200⟩
  · intro heq
    by_contra hne
    cases hp : pipeline raw with
    | error msg =>
      have h42 : (422 : Nat) = 400 :=
        congrArg Prod.fst ((h422 msg hne hp).symm.trans heq)
      exact absurd h42 (by decide)
    | ok preds =>
      have h20 : (200 : Nat) = 400 :=
        congrArg Prod.fst ((h200 preds hne hp).symm.trans heq)
      exact absurd h20 (by decide)
  · intro hraw
    subst hraw
    rfl

theorem classify_http_contract_witness :
    classify [] (fun _ => Except.ok [("angry", (1 : ℚ))]) =
      (400, Json.obj [("error", Json.str "Empty audio file.")]) ∧
    classify [7] (fun _ => Except.error "no dice") =
      (422, Json.obj [("error",
        Json.str "Could not classify audio: no dice")]) ∧
    classify [7] (fun _ => Except.ok [("angry", (1 : ℚ))]) =
      (200, Json.arr [Json.arr [predictionJson ("angry", (1 : ℚ))]]) :=
  ⟨(classify_http_contract [] (fun _ => Except.ok [("angry", 1)])).1.mpr rfl,
   (classify_http_contract [7] (fun _ => Except.error "no dice")).2.1
     "no dice" (by decide) rfl,
   (classify_http_contract [7] (fun _ => Except.ok [("angry", 1)])).2.2
     [("angry", 1)] (by decide) rfl⟩

theorem sum_map_div (l : List ℚ) (c : ℚ) :
    (l.map (fun y => y / c)).sum = l.sum / c := by
  induction l with
  | nil => simp
  | cons x xs ih => simp [ih, add_div]

/-- C8: for every non-empty waveform the Backend A adapter normalizes it
elementwise as (x − mean) / std, calls the model with the waveform tensor
and an all-ones attention mask of the same length, and the softmax of the
logits (for any pointwise-positive exponential) is a probability
distribution over the native label count — non-negative, summing to 1 —
with every score fixed by clamping into [0,1]. -/
theorem backend_a_adapter (audio : List ℚ) (mean std : ℚ) (e : ℚ → ℚ)
    (logits : List ℚ) (haudio : audio ≠ []) (hstd : 0 < std)
    (he : ∀ x, 0 < e x) (hlogits : logits ≠ []) :
    (buildModelCall audio mean std true).waveform =
      audio.map (fun x => (x - mean) / std) ∧
    (buildModelCall audio mean std true).mask =
      List.replicate audio.length 1 ∧
    (softmaxWith e logits).length = logits.length ∧
    (softmaxWith e logits).sum = 1 ∧
    (∀ s ∈ softmaxWith e logits, 0 ≤ s ∧ s ≤ 1 ∧ clamp01 s = s) := by
  have hmapne : logits.map e ≠ [] := fun hc => hlogits (List.map_eq_nil_iff.mp hc)
  have hS : 0 < (logits.map e).sum :=
    List.sum_pos _
      (fun x hx => by
        obtain ⟨y, _, rfl⟩ := List.mem_map.mp hx
        exact he y)
      hmapne
  refine ⟨?_, ?_, ?_, ?_, ?_⟩
  · unfold buildModelCall normalizeWaveform guardedStd
    rw [if_pos ⟨rfl, hstd⟩]
  · unfold buildModelCall normalizeWaveform
    dsimp only
    rw [List.length_map]
  · unfold softmaxWith
    rw [List.length_map]
  · unfold softmaxWith
    have hcomp : (fun x => e x / (logits.map e).sum) =
        (fun y => y / (logits.map e).sum) ∘ e := rfl
    rw [hcomp, ← List.map_map, sum_map_div, div_self (ne_of_gt hS)]
  · intro s hs
    obtain ⟨x, hx, rfl⟩ := List.mem_map.mp hs
    have h0 : 0 ≤ e x / (logits.map e).sum :=
      div_nonneg (he x).le hS.le
    have h1 : e x / (logits.map e).sum ≤ 1 :=
      (div_le_one hS).mpr
        (List.single_le_sum
          (fun y hy => by
            obtain ⟨z, _, rfl⟩ := List.mem_map.mp hy
            exact (he z).le)
          _ (List.mem_map.mpr ⟨x, hx, rfl⟩))
    refine ⟨h0, h1, ?_⟩
    unfold clamp01
    rw [pyMax_eq_max, pyMin_eq_min, min_eq_right h1, max_eq_right h0]

theorem backend_a_adapter_witness :
    (softmaxWith (fun _ => (1 : ℚ)) [0]).sum = 1 ∧
    (buildModelCall [0] 0 1 true).mask = List.replicate 1 1 :=
  ⟨(backend_a_adapter [0] 0 1 (fun _ => 1) [0] (by decide) (by decide)
      (fun _ => one_pos) (by decide)).2.2.2.1,
   (backend_a_adapter [0] 0 1 (fun _ => 1) [0] (by decide) (by decide)
      (fun _ => one_pos) (by decide)).2.1⟩

/-- C9: both temporary files of the ffmpeg transcoding fallback — the
written input temp file and the derived .wav output path — are absent from
the file system after `_convert_to_wav_via_ffmpeg` on every exit path:
success, subprocess non-zero exit, subprocess timeout, or failure reading
the output file. -/
theorem ffmpeg_temp_files_deleted (outcome : RunOutcome)
    (wavWritten readOk : Bool) (wavBytes : List Nat) :
    srcPath ∉ (convert_to_wav_via_ffmpeg outcome wavWritten readOk wavBytes).2 ∧
    wavPath ∉ (convert_to_wav_via_ffmpeg outcome wavWritten readOk wavBytes).2 := by
  cases wavWritten <;> cases outcome <;>
    simp [convert_to_wav_via_ffmpeg, unlinkCatchOSError, srcPath, wavPath]

/-- C10: if the model-supplied std is zero, negative, or non-finite,
`classify_waveform` substitutes 1 as the divisor, so the divisor of the
(x − mean)/std normalization is always positive (in particular never zero,
and never a non-finite value since a non-finite std is replaced). -/
theorem std_guard (std : ℚ) (stdFinite : Bool) :
    ((stdFinite = false ∨ std ≤ 0) → guardedStd std stdFinite = 1) ∧
    0 < guardedStd std stdFinite ∧
    (∀ audio mean, normalizeWaveform audio mean std stdFinite =
      audio.map (fun x => (x - mean) / guardedStd std stdFinite)) := by
  refine ⟨?_, ?_, fun _ _ => rfl⟩
  · intro h
    unfold guardedStd
    rw [if_neg]
    rintro ⟨hfin, hpos⟩
    cases h with
    | inl hf => rw [hfin] at hf; exact Bool.noConfusion hf
    | inr hle => exact absurd hpos (not_lt.mpr hle)
  · unfold guardedStd
    split
    · next hc => exact hc.2
    · exact one_pos

theorem std_guard_witness :
    guardedStd 0 true = 1 ∧ 0 < guardedStd 0 true :=
  ⟨(std_guard 0 true).1 (Or.inr le_rfl), (std_guard 0 true).2.1⟩

end EmotionServe
